import Mathlib

/-
  Verification of the templating core of tools/onlyaml.py (extended YAML
  loader with variable interpolation, include and script directives).

  The Python code is shallowly embedded: dictionaries become association
  lists with first-match lookup (a later dict.update is modelled by
  prepending, so the updated bindings win), the mutable field
  root.variables is passed explicitly as the value it holds at call time,
  exceptions become Except / explicit error results, and the
  generator-based deferred retry of LazyTemplate becomes an explicit
  step function plus a fuelled drain loop.
-/

namespace OnlYaml

/-- A Python dict of string keys and values, as seen by the loader.
Lookup takes the first matching pair, so an update that must win is
prepended. -/
abbrev Dict := List (String × String)

/-- Key lookup, modelling d[k] (with success or KeyError signalled by
Option). -/
def dget (d : Dict) (k : String) : Option String :=
  (d.find? (fun p => p.1 == k)).map (fun p => p.2)

/-- Models base.update(upd) for Python dicts: bindings of upd win over
bindings of base. -/
def dupdate (base upd : Dict) : Dict := upd ++ base

/-- Lookup through an optional dict (None means no dict). -/
def olookup (d : Option Dict) (k : String) : Option String :=
  match d with
  | some m => dget m k
  | none => none

/-- The per-document loader state of class Loader: constructor arguments
defaults and overrides, the lazily harvested document variables, and
whether the loader was created with a non-None root.  The root loader
mutates its own variables field between drain passes, so the value of
root.variables is passed separately to each context computation. -/
structure Loader where
  defaults : Option Dict
  overrides : Option Dict
  docVars : Option Dict
  hasRoot : Bool
deriving Repr, DecidableEq

/-- Loader.getContext: builds the interpolation context by successive
dict updates, in source order: defaults, then self.variables, then
root.variables (when a root exists), then self.overrides, then the
call-site overrides argument.  rootVars is the value of
self.root.variables at the moment of the call. -/
def getContext (L : Loader) (rootVars : Option Dict) (ov : Option Dict) : Dict :=
  let ctx : Dict := []
  let ctx := match L.defaults with | some d => dupdate ctx d | none => ctx
  let ctx := match L.docVars with | some d => dupdate ctx d | none => ctx
  let ctx := if L.hasRoot then
      match rootVars with | some d => dupdate ctx d | none => ctx
    else ctx
  let ctx := match L.overrides with | some d => dupdate ctx d | none => ctx
  match ov with | some d => dupdate ctx d | none => ctx

/-- Loader.subLoader: the factory used by include and script directives.
The child captures a snapshot of the parent context (computed with the
call-site overrides, here the inline include overrides) as its
constructor overrides, has no defaults and no variables of its own, and
chains to the root loader.  rootVars is the value of root.variables when
the snapshot is taken. -/
def subLoader (L : Loader) (rootVars : Option Dict) (ov : Option Dict) : Loader :=
  { defaults := none
    overrides := some (getContext L rootVars ov)
    docVars := none
    hasRoot := true }

/-- Loader.withVariables with root=None, as used by loadf: the caller
supplied table becomes the defaults of the root loader. -/
def withVariables (table : Dict) : Loader :=
  { defaults := some table
    overrides := none
    docVars := none
    hasRoot := false }

/-- The name-resolution order getContext actually implements, written as
a priority chain: call-site overrides, then constructor overrides, then
the root document variables, then the locally accumulated document
variables, then defaults. -/
def resolveSpec (L : Loader) (rootVars : Option Dict) (ov : Option Dict) (k : String) :
    Option String :=
  (olookup ov k).orElse (fun _ =>
    (olookup L.overrides k).orElse (fun _ =>
      (if L.hasRoot then olookup rootVars k else none).orElse (fun _ =>
        (olookup L.docVars k).orElse (fun _ =>
          olookup L.defaults k))))

instance {e a : Type} [DecidableEq e] [DecidableEq a] : DecidableEq (Except e a) := fun x y =>
  match x, y with
  | Except.ok u, Except.ok v =>
    if h : u = v then isTrue (by rw [h]) else isFalse (by intro hc; cases hc; exact h rfl)
  | Except.error u, Except.error v =>
    if h : u = v then isTrue (by rw [h]) else isFalse (by intro hc; cases hc; exact h rfl)
  | Except.ok _, Except.error _ => isFalse (by intro hc; cases hc)
  | Except.error _, Except.ok _ => isFalse (by intro hc; cases hc)

/-! ## The template engine

Loader.interpolate delegates to string.Template(val).substitute(ctx)
from the Python standard library (default delimiter, IGNORECASE
pattern).  substitute scans the string left to right; at each dollar
sign it matches, in order: an escaped dollar, a plain named placeholder,
a braced placeholder, or the empty invalid alternative.  A named or
braced placeholder is replaced by ctx[name] (KeyError when unbound, so
the first unbound placeholder aborts the call); a malformed dollar use
raises ValueError.  The scan is embedded below with explicit fuel (one
unit per consumed character, so the initial string length is always
enough); substituted values are spliced without being rescanned, as
re.sub does. -/

/-- First character of an identifier, per the IGNORECASE pattern
[_a-z][_a-z0-9]* of string.Template. -/
def isIdStart (c : Char) : Bool := c = '_' || c.isAlpha

/-- Continuation character of an identifier. -/
def isIdChar (c : Char) : Bool := isIdStart c || c.isDigit

/-- Longest prefix of identifier characters, with the remainder. -/
def spanId : List Char → List Char × List Char
  | [] => ([], [])
  | c :: cs =>
    if isIdChar c then
      match spanId cs with
      | (a, b) => (c :: a, b)
    else ([], c :: cs)

/-- Failure modes of one substitute call: KeyError on an unbound
placeholder name, or ValueError on a malformed dollar use. -/
inductive SubErr
  | missing (name : String)
  | invalid
deriving Repr, DecidableEq

/-- The left-to-right scan of string.Template.substitute.  Fuel
decreases by at least one consumed character per step, so fuel ≥ length
never hits the fuel-out branch (the branch mirrors the invalid result
so the characterization lemma below stays uniform). -/
def subAux (ctx : Dict) : Nat → List Char → Except SubErr (List Char)
  | _, [] => Except.ok []
  | 0, _ :: _ => Except.error SubErr.invalid
  | Nat.succ fuel, c :: cs =>
    if c = '$' then
      match cs with
      | [] => Except.error SubErr.invalid
      | d :: cs2 =>
        if d = '$' then
          (subAux ctx fuel cs2).map (fun r => '$' :: r)
        else if d = '{' then
          match spanId cs2 with
          | (name, rest) =>
            match name, rest with
            | n0 :: ntl, r0 :: rest2 =>
              if r0 = '}' then
                if isIdStart n0 then
                  match dget ctx (String.mk (n0 :: ntl)) with
                  | some v => (subAux ctx fuel rest2).map (fun r => v.data ++ r)
                  | none => Except.error (SubErr.missing (String.mk (n0 :: ntl)))
                else Except.error SubErr.invalid
              else Except.error SubErr.invalid
            | _, _ => Except.error SubErr.invalid
        else if isIdStart d then
          match spanId cs2 with
          | (ids, rest) =>
            match dget ctx (String.mk (d :: ids)) with
            | some v => (subAux ctx fuel rest).map (fun r => v.data ++ r)
            | none => Except.error (SubErr.missing (String.mk (d :: ids)))
        else Except.error SubErr.invalid
    else (subAux ctx fuel cs).map (fun r => c :: r)

/-- The placeholder names of a template in scan order up to the first
malformed dollar use, and whether such a malformed use occurs.  Same
recursion pattern as subAux, independent of any context. -/
def scanTpl : Nat → List Char → List String × Bool
  | _, [] => ([], false)
  | 0, _ :: _ => ([], true)
  | Nat.succ fuel, c :: cs =>
    if c = '$' then
      match cs with
      | [] => ([], true)
      | d :: cs2 =>
        if d = '$' then scanTpl fuel cs2
        else if d = '{' then
          match spanId cs2 with
          | (name, rest) =>
            match name, rest with
            | n0 :: ntl, r0 :: rest2 =>
              if r0 = '}' then
                if isIdStart n0 then
                  match scanTpl fuel rest2 with
                  | (ns, b) => (String.mk (n0 :: ntl) :: ns, b)
                else ([], true)
              else ([], true)
            | _, _ => ([], true)
        else if isIdStart d then
          match spanId cs2 with
          | (ids, rest) =>
            match scanTpl fuel rest with
            | (ns, b) => (String.mk (d :: ids) :: ns, b)
        else ([], true)
    else scanTpl fuel cs

/-- string.Template(s).substitute(ctx). -/
def substitute (ctx : Dict) (s : String) : Except SubErr String :=
  (subAux ctx s.data.length s.data).map String.mk

/-- The placeholders of a template string, with the malformed-dollar
flag. -/
def scanTemplate (s : String) : List String × Bool :=
  scanTpl s.data.length s.data

/-- Outcomes of Loader.interpolate: success, OnlTemplateError carrying
the unresolved name and the template (the KeyError path), or the
uncaught ValueError from a malformed dollar use. -/
inductive InterpErr
  | templateRes (name tpl : String)
  | invalidPlaceholder
deriving Repr, DecidableEq

/-- Loader.interpolate: substitute against getContext, converting
KeyError into OnlTemplateError with the offending name and template.
rootVars is the current value of self.root.variables. -/
def interpolate (L : Loader) (rootVars : Option Dict) (ov : Option Dict) (val : String) :
    Except InterpErr String :=
  match substitute (getContext L rootVars ov) val with
  | Except.ok s => Except.ok s
  | Except.error (SubErr.missing n) => Except.error (InterpErr.templateRes n val)
  | Except.error SubErr.invalid => Except.error InterpErr.invalidPlaceholder

/-! ## Lazy scalars and the deferred retry machinery

LazyString and LazyUnicode subclass the primitive string types: the
underlying string content is fixed at allocation to a per-class
sentinel, and the eventual value lives in the data attribute.  Reading
the value through the overridden dunder str raises ValueError while
data is unset; every other string operation works on the raw sentinel
content.  LazyTemplate.start attempts interpolation once at
construction; on OnlTemplateError it yields a fresh lazy string and
enqueues a defer generator, and each defer execution retries
interpolation, re-enqueueing itself with a decremented budget until it
succeeds or the budget reaches zero. -/

/-- Python exception classes raised by the embedded code paths. -/
inductive PyErr
  | onlTemplateError
  | onlYamlError
  | valueError
  | typeError
  | notImplementedError
  | attributeError
  | indexError
  | yamlParseError
deriving Repr, DecidableEq

/-- Which primitive string class the scalar subclasses. -/
inductive StrKind
  | str
  | unicode
deriving Repr, DecidableEq

/-- The per-class UNDEFINED sentinel class attribute. -/
def sentinel : StrKind → String
  | StrKind.str => "THIS STRING INTENTIONALLY LEFT BLANK"
  | StrKind.unicode => "THIS UNICODE STRING INTENTIONALLY LEFT BLANK"

/-- A constructed lazy scalar instance: the raw primitive string
content fixed by the allocator, and the mutable data attribute. -/
structure LazyStr where
  kind : StrKind
  raw : String
  data : Option String
deriving Repr, DecidableEq

/-- A freshly allocated LazyString(): raw content is the class
sentinel, data is unset. -/
def mkLazyStr : LazyStr :=
  { kind := StrKind.str, raw := sentinel StrKind.str, data := none }

/-- Allocation of the lazy container for each string class.
LazyString() succeeds.  LazyUnicode.__new__ calls str.__new__ with the
LazyUnicode class, which subclasses unicode and is therefore not a
subtype of str, so the allocation always raises TypeError: a lazy
unicode scalar can never actually be constructed. -/
def mkLazy : StrKind → Except PyErr LazyStr
  | StrKind.str => Except.ok mkLazyStr
  | StrKind.unicode => Except.error PyErr.typeError

/-- The overridden dunder str: raises ValueError while data is None or
still equal to the class sentinel, otherwise returns data. -/
def lazyStr (l : LazyStr) : Except PyErr String :=
  match l.data with
  | none => Except.error PyErr.valueError
  | some d => if d = sentinel l.kind then Except.error PyErr.valueError else Except.ok d

/-- LazyTemplate state: the source template, its string class, the
optional lazy container, and the remaining tries (an int, compared
against 0 with ≤). -/
structure LazyTemplate where
  val : String
  kind : StrKind
  data : Option LazyStr := none
  tries : Int := 5
deriving Repr, DecidableEq

/-- What the first segment of LazyTemplate.start does, given the result
of its single interpolation attempt.  On success the interpolated
scalar is yielded and the generator ends; on OnlTemplateError the lazy
container for the template string class is allocated — succeeding (and
being yielded, with the continuation appending the first defer
generator in the drain loop) only for str templates, while the
LazyUnicode allocation for a unicode template raises TypeError; the
invalid-data guard and an uncaught ValueError from interpolate also
raise. -/
inductive StartStep
  | yieldScalar (v : String)
  | yieldLazy (l : LazyStr) (t : LazyTemplate)
  | raise (e : PyErr)
deriving Repr, DecidableEq

def startStep (attempt : Except InterpErr String) (t : LazyTemplate) : StartStep :=
  if t.data.isSome then StartStep.raise PyErr.valueError
  else
    match attempt with
    | Except.ok v => StartStep.yieldScalar v
    | Except.error (InterpErr.templateRes _ _) =>
      match mkLazy t.kind with
      | Except.ok l => StartStep.yieldLazy l { t with data := some l }
      | Except.error e => StartStep.raise e
    | Except.error InterpErr.invalidPlaceholder => StartStep.raise PyErr.valueError

/-- Result of one execution of the body of LazyTemplate.defer. -/
inductive DeferStep
  | raise (e : PyErr)
  | finish (t : LazyTemplate)
  | requeue (t : LazyTemplate)
deriving Repr, DecidableEq

/-- One execution of LazyTemplate.defer, given the result the attempted
interpolation would have (the second component counts whether
interpolate was actually invoked).  With the budget exhausted, strict
mode raises OnlTemplateError and lenient mode freezes the lazy string
to the literal template; otherwise an already-substituted container is
a NotImplementedError, a successful attempt assigns data once and
returns, OnlTemplateError decrements the budget and re-enqueues, and a
ValueError from interpolate propagates. -/
def deferStep (strictMode : Bool) (attempt : Except InterpErr String) (t : LazyTemplate) :
    DeferStep × Nat :=
  if t.tries ≤ 0 then
    if strictMode then (DeferStep.raise PyErr.onlTemplateError, 0)
    else
      match t.data with
      | none => (DeferStep.raise PyErr.attributeError, 0)
      | some d => (DeferStep.finish { t with data := some { d with data := some t.val } }, 0)
  else if (match t.data with | some d => d.data.isSome | none => false) then
    (DeferStep.raise PyErr.notImplementedError, 0)
  else
    match attempt with
    | Except.error (InterpErr.templateRes _ _) =>
      (DeferStep.requeue { t with tries := t.tries - 1 }, 1)
    | Except.error InterpErr.invalidPlaceholder => (DeferStep.raise PyErr.valueError, 1)
    | Except.ok v =>
      match t.data with
      | none => (DeferStep.raise PyErr.attributeError, 1)
      | some d => (DeferStep.finish { t with data := some { d with data := some v } }, 1)

/-- Final state of one scalar after its defer chain is drained. -/
inductive Outcome
  | scalar (v : String)
  | finished (t : LazyTemplate)
  | raised (e : PyErr)
  | fuelOut
deriving Repr, DecidableEq

/-- The drain of the defer chain of one scalar across the passes of the
construct-document loop.  oracle i is the result interpolation would
give on the i-th attempt (the context may gain variables between
passes).  The second component accumulates how many interpolation
attempts were made.  Fuel only bounds the number of defer executions;
the chain always ends within tries + 1 executions. -/
def drainFrom (strictMode : Bool) (oracle : Nat → Except InterpErr String) :
    Nat → Nat → LazyTemplate → Nat → Outcome × Nat
  | 0, _, _, count => (Outcome.fuelOut, count)
  | Nat.succ fuel, i, t, count =>
    match deferStep strictMode (oracle i) t with
    | (DeferStep.raise e, a) => (Outcome.raised e, count + a)
    | (DeferStep.finish t2, a) => (Outcome.finished t2, count + a)
    | (DeferStep.requeue t2, a) => drainFrom strictMode oracle fuel (i + 1) t2 (count + a)

/-- Whole lifecycle of one scalar template: the construction-time
attempt made by LazyTemplate.start, then, if that failed, the defer
chain.  The count includes the construction attempt. -/
def lifecycle (strictMode : Bool) (oracle : Nat → Except InterpErr String) (fuel : Nat)
    (k : StrKind) (val : String) : Outcome × Nat :=
  match startStep (oracle 0) { val := val, kind := k } with
  | StartStep.yieldScalar v => (Outcome.scalar v, 1)
  | StartStep.raise e => (Outcome.raised e, 1)
  | StartStep.yieldLazy _ t => drainFrom strictMode oracle fuel 1 t 1

/-- Whether the construction-time attempt fails recoverably, making the
scalar initially unresolvable (it then enters the drain loop). -/
def startsLazy (attempt : Except InterpErr String) : Bool :=
  match attempt with
  | Except.error (InterpErr.templateRes _ _) => true
  | _ => false

/-- Interpolation attempts one scalar contributes inside the drain loop
(zero if it resolved at construction or raised). -/
def scalarDrainAttempts (strictMode : Bool) (oracle : Nat → Except InterpErr String)
    (fuel : Nat) (k : StrKind) (val : String) : Nat :=
  match startStep (oracle 0) { val := val, kind := k } with
  | StartStep.yieldLazy _ t => (drainFrom strictMode oracle fuel 1 t 0).2
  | _ => 0

/-- Total interpolation attempts the drain loop performs for a document
whose scalars are given with their per-attempt interpolation oracles. -/
def docDrainAttempts (strictMode : Bool) (fuel : Nat)
    (xs : List (StrKind × String × (Nat → Except InterpErr String))) : Nat :=
  (xs.map (fun x => scalarDrainAttempts strictMode x.2.2 fuel x.1 x.2.1)).sum

/-- Number of initially unresolvable scalars of such a document. -/
def unresolvedCount (xs : List (StrKind × String × (Nat → Except InterpErr String))) : Nat :=
  xs.countP (fun x => startsLazy (x.2.2 0))

/-! ## Script and include directives

TemplateMixin.getString constructs the node as a string scalar, and when
that produces a generator takes exactly one value from it: the
interpolated string on success, or the freshly created lazy string on a
recoverable failure.  Because LazyString and LazyUnicode subclass the
primitive string types, the isinstance basestring guard never fires,
and since the generator is dropped after one step, the defer
continuation of the failed scalar is never enqueued: directives get no
deferred retry. -/

/-- The single value getString takes from the constructor. -/
inductive GotString
  | resolved (s : String)
  | lazy (l : LazyStr)
deriving Repr, DecidableEq

/-- TemplateMixin.getString, given the result of the construction-time
interpolation attempt of its string node. -/
def getString (attempt : Except InterpErr String) (k : StrKind) (val : String) :
    Except PyErr GotString :=
  match startStep attempt { val := val, kind := k } with
  | StartStep.yieldScalar v => Except.ok (GotString.resolved v)
  | StartStep.yieldLazy l _ => Except.ok (GotString.lazy l)
  | StartStep.raise e => Except.error e

/-- The percent-s conversion applied to the directive argument: plain
strings format as themselves, lazy strings go through the overridden
dunder str, which raises while unresolved. -/
def strOf (g : GotString) : Except PyErr String :=
  match g with
  | GotString.resolved s => Except.ok s
  | GotString.lazy l => lazyStr l

/-- ScriptNode.from_yaml after getString: the named temporary file is
created and immediately closed (so deleted, delete-on-close), the
command string is formatted (ValueError propagates here for an
unresolved lazy argument, before any execution), the shell runs with
its output redirected to the temporary name (the redirection recreates
the file whatever the exit status), a non-zero exit raises OnlYamlError
before the try block, and otherwise the output is parsed with the
unlink in a finally clause.  The boolean records whether a file is left
at the temporary name afterwards. -/
def scriptFromYaml (g : Except PyErr GotString) (exitStatus : Int) (parseOk : Bool) :
    Except PyErr Unit × Bool :=
  match g with
  | Except.error e => (Except.error e, false)
  | Except.ok gs =>
    match strOf gs with
    | Except.error e => (Except.error e, false)
    | Except.ok _ =>
      if exitStatus = 0 then
        if parseOk then (Except.ok (), false) else (Except.error PyErr.yamlParseError, false)
      else (Except.error PyErr.onlYamlError, true)

/-- Split a character list at every occurrence of the separator. -/
def splitOnChar (sep : Char) : List Char → List (List Char)
  | [] => [[]]
  | c :: cs =>
    if c = sep then [] :: splitOnChar sep cs
    else
      match splitOnChar sep cs with
      | [] => [[c]]
      | w :: ws => (c :: w) :: ws

/-- Python str.split(): whitespace-separated words, empty words dropped
(the directive strings involved only use plain spaces). -/
def splitWS (s : String) : List String :=
  ((splitOnChar ' ' s.data).filter (fun w => w ≠ [])).map String.mk

/-- The characters before and after the first occurrence of the
separator, when it occurs at all. -/
def breakAt (sep : Char) : List Char → Option (List Char × List Char)
  | [] => none
  | c :: cs =>
    if c = sep then some ([], cs)
    else
      match breakAt sep cs with
      | some (a, b) => some (c :: a, b)
      | none => none

/-- Python str.partition on the equals sign, keeping only the
key/value split when the separator occurs. -/
def partitionEq (opt : String) : Option (String × String) :=
  (breakAt '=' opt.data).map (fun p => (String.mk p.1, String.mk p.2))

/-- The scalar branch of IncludeNode.from_yaml up to computing the file
name and the inline override dict: the directive string is split into
words (a lazy directive exposes its raw sentinel content to split), the
first word is the file name, and every other word must be a key=value
override, else OnlYamlError is raised. -/
def includeScalarParse (g : GotString) : Except PyErr (String × Dict) :=
  let directive := match g with | GotString.resolved s => s | GotString.lazy l => l.raw
  match splitWS directive with
  | [] => Except.error PyErr.indexError
  | fname :: options =>
    (options.foldlM (fun (acc : Dict) opt =>
      match partitionEq opt with
      | some (kk, v) => Except.ok (dupdate acc [(kk, v)])
      | none => Except.error PyErr.onlYamlError) ([] : Dict)).map (fun vars => (fname, vars))

/-- A valid placeholder identifier: nonempty, identifier start, then
identifier characters. -/
def validId (k : String) : Bool :=
  match k.data with
  | [] => false
  | c :: cs => isIdStart c && cs.all isIdChar

/-- Joint statement relating one substitute scan to the placeholder
scan of the same template suffix: the call fails with KeyError on the
first unbound scanned name, else with ValueError when the suffix has a
malformed dollar use, else succeeds. -/
def SubScanOk (ctx : Dict) (sub : Except SubErr (List Char)) (scan : List String × Bool) :
    Prop :=
  (∀ n, scan.1.find? (fun m => (dget ctx m).isNone) = some n →
    sub = Except.error (SubErr.missing n)) ∧
  (scan.1.find? (fun m => (dget ctx m).isNone) = none →
    (scan.2 = true → sub = Except.error SubErr.invalid) ∧
    (scan.2 = false → ∃ out, sub = Except.ok out))

lemma dget_nil (k : String) : dget [] k = none := rfl

lemma find?_append {α : Type} (p : α → Bool) (l₁ l₂ : List α) :
    (l₁ ++ l₂).find? p = (l₁.find? p).orElse (fun _ => l₂.find? p) := by
  induction l₁ with
  | nil => rfl
  | cons a l ih =>
    by_cases h : p a
    · simp [List.find?_cons_of_pos _ h]
    · simp [List.find?_cons_of_neg _ h, ih]

lemma dget_dupdate (base upd : Dict) (k : String) :
    dget (dupdate base upd) k = (dget upd k).orElse (fun _ => dget base k) := by
  unfold dget dupdate
  rw [find?_append]
  cases upd.find? (fun p => p.1 == k) <;> simp

lemma orElse_none_right (x : Option String) :
    (x.orElse fun _ => none) = x := by
  cases x <;> rfl

/-- The context built by getContext resolves every name exactly per the
priority chain resolveSpec. -/
lemma getContext_spec (L : Loader) (rootVars ov : Option Dict) (k : String) :
    dget (getContext L rootVars ov) k = resolveSpec L rootVars ov k := by
  unfold getContext resolveSpec
  cases hd : L.defaults <;> cases hv : L.docVars <;> cases hr : L.hasRoot <;>
    cases hrv : rootVars <;> cases ho : L.overrides <;> cases hov : ov <;>
      simp [olookup, dget_dupdate, dget_nil, orElse_none_right]

lemma spanId_all_id (l : List Char) (h : l.all isIdChar = true) : spanId l = (l, []) := by
  induction l with
  | nil => rfl
  | cons c cs ih =>
    rw [List.all_cons, Bool.and_eq_true] at h
    simp [spanId, h.1, ih h.2]

lemma data_append (s t : String) : (s ++ t).data = s.data ++ t.data := rfl

lemma mk_data (s : String) : String.mk s.data = s := by cases s; rfl

lemma subAux_ok_name (ctx : Dict) (fuel : Nat) (c : Char) (cs : List Char) (v : String)
    (hc : isIdStart c = true) (hall : cs.all isIdChar = true)
    (hv : dget ctx (String.mk (c :: cs)) = some v) :
    subAux ctx (Nat.succ fuel) ('$' :: c :: cs) = Except.ok v.data := by
  have hcd : ¬(c = '$') := by
    intro h; rw [h] at hc; simp [isIdStart, Char.isAlpha, Char.isUpper, Char.isLower] at hc
  have hcb : ¬(c = '{') := by
    intro h; rw [h] at hc; simp [isIdStart, Char.isAlpha, Char.isUpper, Char.isLower] at hc
  simp [subAux, hcd, hcb, hc, spanId_all_id cs hall, hv, Except.map]

/-- Interpolating a template which is exactly one plain named
placeholder with a bound name yields the binding. -/
lemma substitute_name (ctx : Dict) (k v : String) (hk : validId k = true)
    (hv : dget ctx k = some v) : substitute ctx ("$" ++ k) = Except.ok v := by
  rcases hd : k.data with _ | ⟨c, cs⟩
  · rw [validId, hd] at hk; simp at hk
  · rw [validId, hd, Bool.and_eq_true] at hk
    have hsk : String.mk (c :: cs) = k := by rw [← hd, mk_data]
    have hlist : ("$" ++ k).data = '$' :: c :: cs := by
      rw [data_append, hd]; rfl
    unfold substitute
    rw [hlist]
    have hlen : ('$' :: c :: cs).length = Nat.succ (cs.length + 1) := by
      simp [List.length_cons]
    rw [hlen, subAux_ok_name ctx (cs.length + 1) c cs v hk.1 hk.2 (by rw [hsk]; exact hv)]
    simp [Except.map, mk_data]

lemma subscan_invalid (ctx : Dict) : SubScanOk ctx (Except.error SubErr.invalid) ([], true) := by
  constructor
  · intro n h; simp at h
  · intro _; exact ⟨fun _ => rfl, fun h => by simp at h⟩

lemma subscan_ok (ctx : Dict) (out : List Char) :
    SubScanOk ctx (Except.ok out) ([], false) := by
  constructor
  · intro n h; simp at h
  · intro _; exact ⟨fun h => by simp at h, fun _ => ⟨out, rfl⟩⟩

lemma subscan_map (ctx : Dict) {sub : Except SubErr (List Char)} {scan : List String × Bool}
    (h : SubScanOk ctx sub scan) (f : List Char → List Char) :
    SubScanOk ctx (sub.map f) scan := by
  obtain ⟨h1, h2⟩ := h
  constructor
  · intro n hn; rw [h1 n hn]; rfl
  · intro hnone
    obtain ⟨hb, hg⟩ := h2 hnone
    refine ⟨fun hbt => ?_, fun hbf => ?_⟩
    · rw [hb hbt]; rfl
    · obtain ⟨out, ho⟩ := hg hbf
      exact ⟨f out, by rw [ho]; rfl⟩

lemma subscan_name (ctx : Dict) (nm : String) {sub : Except SubErr (List Char)}
    {scan : List String × Bool} (h : SubScanOk ctx sub scan)
    (f : String → List Char → List Char) :
    SubScanOk ctx
      (match dget ctx nm with
       | some v => sub.map (f v)
       | none => Except.error (SubErr.missing nm))
      (nm :: scan.1, scan.2) := by
  cases hdg : dget ctx nm with
  | none =>
    constructor
    · intro n hn
      rw [List.find?_cons_of_pos _ (by simp [hdg])] at hn
      cases hn; rfl
    · intro hnone
      rw [List.find?_cons_of_pos _ (by simp [hdg])] at hnone
      cases hnone
  | some v =>
    obtain ⟨hm, hrest⟩ := subscan_map ctx h (f v)
    constructor
    · intro n hn
      rw [List.find?_cons_of_neg _ (by simp [hdg])] at hn
      exact hm n hn
    · intro hnone
      rw [List.find?_cons_of_neg _ (by simp [hdg])] at hnone
      exact hrest hnone

lemma subscan_congr (ctx : Dict) {s1 s2 : Except SubErr (List Char)}
    {p1 p2 : List String × Bool} (hs : s1 = s2) (hp : p1 = p2)
    (h : SubScanOk ctx s2 p2) : SubScanOk ctx s1 p1 := by
  rw [hs, hp]; exact h

/-- Full characterization of the substitute scan against the scanned
placeholder list, at every fuel and suffix. -/
lemma subAux_scanTpl (ctx : Dict) :
    ∀ (fuel : Nat) (cs : List Char),
      SubScanOk ctx (subAux ctx fuel cs) (scanTpl fuel cs) := by
  intro fuel
  induction fuel with
  | zero =>
    intro cs
    cases cs with
    | nil => exact subscan_congr ctx rfl rfl (subscan_ok ctx [])
    | cons c cs => exact subscan_congr ctx rfl rfl (subscan_invalid ctx)
  | succ fuel ih =>
    intro cs
    cases cs with
    | nil => exact subscan_congr ctx rfl rfl (subscan_ok ctx [])
    | cons c cs =>
      by_cases hc : c = '$'
      · subst hc
        cases cs with
        | nil =>
          exact subscan_congr ctx (by simp [subAux]) (by simp [scanTpl]) (subscan_invalid ctx)
        | cons d cs2 =>
          by_cases hd : d = '$'
          · subst hd
            exact subscan_congr ctx (by simp [subAux]) (by simp [scanTpl])
              (subscan_map ctx (ih cs2) (fun r => '$' :: r))
          · by_cases hdb : d = '{'
            · subst hdb
              rcases hsp : spanId cs2 with ⟨name, rest⟩
              cases name with
              | nil =>
                exact subscan_congr ctx (by simp [subAux, hsp]) (by simp [scanTpl, hsp])
                  (subscan_invalid ctx)
              | cons n0 ntl =>
                cases rest with
                | nil =>
                  exact subscan_congr ctx (by simp [subAux, hsp]) (by simp [scanTpl, hsp])
                    (subscan_invalid ctx)
                | cons r0 rest2 =>
                  by_cases hr : r0 = '}'
                  · subst hr
                    by_cases hs : isIdStart n0
                    · rcases hsc : scanTpl fuel rest2 with ⟨ns, b⟩
                      have IH := ih rest2
                      rw [hsc] at IH
                      exact subscan_congr ctx (by simp [subAux, hsp, hs])
                        (by simp [scanTpl, hsp, hs, hsc])
                        (subscan_name ctx (String.mk (n0 :: ntl)) IH
                          (fun v r => v.data ++ r))
                    · exact subscan_congr ctx (by simp [subAux, hsp, hs])
                        (by simp [scanTpl, hsp, hs]) (subscan_invalid ctx)
                  · exact subscan_congr ctx (by simp [subAux, hsp, hr])
                      (by simp [scanTpl, hsp, hr]) (subscan_invalid ctx)
            · by_cases his : isIdStart d
              · rcases hsp : spanId cs2 with ⟨ids, rest⟩
                rcases hsc : scanTpl fuel rest with ⟨ns, b⟩
                have IH := ih rest
                rw [hsc] at IH
                exact subscan_congr ctx (by simp [subAux, hd, hdb, his, hsp])
                  (by simp [scanTpl, hd, hdb, his, hsp, hsc])
                  (subscan_name ctx (String.mk (d :: ids)) IH (fun v r => v.data ++ r))
              · exact subscan_congr ctx (by simp [subAux, hd, hdb, his])
                  (by simp [scanTpl, hd, hdb, his]) (subscan_invalid ctx)
      · exact subscan_congr ctx (by simp [subAux, hc]) (by simp [scanTpl, hc])
          (subscan_map ctx (ih cs) (fun r => c :: r))

lemma deferStep_requeue_inv {b : Bool} {a : Except InterpErr String} {t t2 : LazyTemplate}
    {cnt : Nat} (h : deferStep b a t = (DeferStep.requeue t2, cnt)) :
    0 < t.tries ∧ t2.tries = t.tries - 1 ∧ t2.data = t.data ∧ cnt = 1 := by
  by_cases h0 : t.tries ≤ 0
  · exfalso
    unfold deferStep at h
    rw [if_pos h0] at h
    cases b <;> cases ht : t.data <;> simp [ht] at h
  · unfold deferStep at h
    rw [if_neg h0] at h
    by_cases hset : (match t.data with | some d => d.data.isSome | none => false) = true
    · rw [if_pos hset] at h; simp at h
    · rw [if_neg hset] at h
      cases a with
      | ok v => cases ht : t.data <;> simp [ht] at h
      | error e =>
        cases e with
        | invalidPlaceholder => simp at h
        | templateRes nn tt =>
          simp only [Prod.mk.injEq, DeferStep.requeue.injEq] at h
          obtain ⟨h1, h2⟩ := h
          subst h1
          exact ⟨by omega, rfl, rfl, by omega⟩

lemma deferStep_cnt (b : Bool) (a : Except InterpErr String) (t : LazyTemplate) :
    (deferStep b a t).2 ≤ 1 ∧ ((deferStep b a t).2 = 1 → 0 < t.tries) := by
  unfold deferStep
  by_cases h0 : t.tries ≤ 0
  · rw [if_pos h0]
    cases b <;> cases ht : t.data <;> simp
  · rw [if_neg h0]
    by_cases hset : (match t.data with | some d => d.data.isSome | none => false) = true
    · rw [if_pos hset]; simp
    · rw [if_neg hset]
      cases a with
      | ok v => cases ht : t.data <;> simp <;> omega
      | error e => cases e <;> simp <;> omega

lemma drain_count_le (b : Bool) (oracle : Nat → Except InterpErr String) :
    ∀ (fuel i : Nat) (t : LazyTemplate) (count : Nat),
      (drainFrom b oracle fuel i t count).2 ≤ count + t.tries.toNat := by
  intro fuel
  induction fuel with
  | zero => intro i t count; simp [drainFrom]
  | succ fuel ih =>
    intro i t count
    rcases hds : deferStep b (oracle i) t with ⟨step, a⟩
    have hc := deferStep_cnt b (oracle i) t
    rw [hds] at hc
    simp only at hc
    cases step with
    | raise e => simp [drainFrom, hds]; omega
    | finish t2 => simp [drainFrom, hds]; omega
    | requeue t2 =>
      obtain ⟨hp, htr, _, hcnt⟩ := deferStep_requeue_inv hds
      have hi := ih (i + 1) t2 (count + a)
      have hnat : t2.tries.toNat + 1 = t.tries.toNat := by omega
      simp only [drainFrom, hds]
      omega

lemma drain_no_fuelOut (b : Bool) (oracle : Nat → Except InterpErr String) :
    ∀ (fuel i : Nat) (t : LazyTemplate) (count : Nat), t.tries.toNat < fuel →
      (drainFrom b oracle fuel i t count).1 ≠ Outcome.fuelOut := by
  intro fuel
  induction fuel with
  | zero => intro i t count h; omega
  | succ fuel ih =>
    intro i t count h
    rcases hds : deferStep b (oracle i) t with ⟨step, a⟩
    cases step with
    | raise e => simp [drainFrom, hds]
    | finish t2 => simp [drainFrom, hds]
    | requeue t2 =>
      obtain ⟨hp, htr, _, _⟩ := deferStep_requeue_inv hds
      have h2 : t2.tries.toNat < fuel := by omega
      simpa [drainFrom, hds] using ih (i + 1) t2 (count + a) h2

lemma deferStep_fail (b : Bool) (nm tp : String) (t : LazyTemplate) (l : LazyStr)
    (h0 : ¬(t.tries ≤ 0)) (hd : t.data = some l) (hl : l.data = none) :
    deferStep b (Except.error (InterpErr.templateRes nm tp)) t
      = (DeferStep.requeue { t with tries := t.tries - 1 }, 1) := by
  unfold deferStep
  rw [if_neg h0]
  simp [hd, hl]

/-- A defer chain whose every attempt fails recoverably: the budget is
burnt down one per pass, and the run at budget zero raises in strict
mode and freezes the lazy string to the literal template in lenient
mode, with exactly one interpolation attempt per positive budget
value. -/
lemma drain_exhaust (b : Bool) (oracle : Nat → Except InterpErr String)
    (hor : ∀ i, ∃ nm tp, oracle i = Except.error (InterpErr.templateRes nm tp)) :
    ∀ (j m i : Nat) (val : String) (count : Nat),
      drainFrom b oracle (j + 1 + m) i
        { val := val, kind := StrKind.str, data := some mkLazyStr, tries := (j : Int) } count
      = ((if b then Outcome.raised PyErr.onlTemplateError
          else Outcome.finished ⟨val, StrKind.str,
            some ⟨StrKind.str, sentinel StrKind.str, some val⟩, 0⟩), count + j) := by
  intro j
  induction j with
  | zero =>
    intro m i val count
    rw [show 0 + 1 + m = Nat.succ m from by omega]
    cases b <;> simp [drainFrom, deferStep, mkLazyStr]
  | succ j ih =>
    intro m i val count
    obtain ⟨nm, tp, hi⟩ := hor i
    have hstep := deferStep_fail b nm tp
      { val := val, kind := StrKind.str, data := some mkLazyStr,
        tries := ((j + 1 : Nat) : Int) } mkLazyStr
      (by show ¬(((j + 1 : Nat) : Int) ≤ 0); omega) rfl rfl
    rw [show j + 1 + 1 + m = Nat.succ (j + 1 + m) from by omega]
    simp only [drainFrom, hi, hstep]
    have hcast : ((j + 1 : Nat) : Int) - 1 = (j : Int) := by push_cast; ring
    rw [show count + (j + 1) = count + 1 + j from by omega]
    rw [← ih m (i + 1) val (count + 1)]
    congr 1
    simp [hcast]

/-- The start of one never-resolving str scalar followed by its full
defer chain: six failed attempts in total (one at construction, five in
the drain loop), ending in OnlTemplateError under strict mode and in
the literal template under lenient mode. -/
lemma lifecycle_exhaust (b : Bool) (oracle : Nat → Except InterpErr String)
    (hor : ∀ i, ∃ nm tp, oracle i = Except.error (InterpErr.templateRes nm tp))
    (fuel : Nat) (hf : 6 ≤ fuel) (val : String) :
    lifecycle b oracle fuel StrKind.str val
      = ((if b then Outcome.raised PyErr.onlTemplateError
          else Outcome.finished ⟨val, StrKind.str,
            some ⟨StrKind.str, sentinel StrKind.str, some val⟩, 0⟩), 6) := by
  obtain ⟨m, rfl⟩ : ∃ m, fuel = 5 + 1 + m := ⟨fuel - 6, by omega⟩
  obtain ⟨nm, tp, h0⟩ := hor 0
  unfold lifecycle
  have hss : startStep (Except.error (InterpErr.templateRes nm tp))
        { val := val, kind := StrKind.str }
      = StartStep.yieldLazy mkLazyStr
          { val := val, kind := StrKind.str, data := some mkLazyStr, tries := 5 } := by
    simp [startStep, mkLazy]
  simp only [h0, hss]
  have hmain := drain_exhaust b oracle hor 5 m 1 val 1
  simp only [Nat.cast_ofNat] at hmain
  rw [hmain]

/-- The lifecycle of a unicode scalar whose construction-time attempt
fails recoverably: LazyTemplate.start then evaluates LazyUnicode(),
whose allocation raises TypeError — one failed interpolation attempt
has been made and the loader crashes under either policy. -/
lemma lifecycle_unicode (b : Bool) (oracle : Nat → Except InterpErr String)
    (hor : ∀ i, ∃ nm tp, oracle i = Except.error (InterpErr.templateRes nm tp))
    (fuel : Nat) (val : String) :
    lifecycle b oracle fuel StrKind.unicode val = (Outcome.raised PyErr.typeError, 1) := by
  obtain ⟨nm, tp, h0⟩ := hor 0
  unfold lifecycle
  simp [h0, startStep, mkLazy]

lemma scalarDrainAttempts_le (b : Bool) (oracle : Nat → Except InterpErr String)
    (fuel : Nat) (k : StrKind) (val : String) :
    scalarDrainAttempts b oracle fuel k val ≤ 5 := by
  unfold scalarDrainAttempts
  cases hss : startStep (oracle 0) { val := val, kind := k } with
  | yieldScalar v => simp
  | raise e => simp
  | yieldLazy l t =>
    have ht : t.tries = 5 := by
      unfold startStep at hss
      simp only [show ({ val := val, kind := k } : LazyTemplate).data.isSome = false from rfl,
        Bool.false_eq_true, if_false] at hss
      cases horc : oracle 0 with
      | ok v => rw [horc] at hss; cases hss
      | error e =>
        cases e with
        | templateRes nn tt =>
          rw [horc] at hss
          cases k with
          | str =>
            simp only [mkLazy] at hss
            cases hss
            rfl
          | unicode =>
            simp only [mkLazy] at hss
            cases hss
        | invalidPlaceholder => rw [horc] at hss; cases hss
    have := drain_count_le b oracle fuel 1 t 0
    rw [ht] at this
    simpa using this

lemma scalarDrainAttempts_notLazy (b : Bool) (oracle : Nat → Except InterpErr String)
    (fuel : Nat) (k : StrKind) (val : String) (h : startsLazy (oracle 0) = false) :
    scalarDrainAttempts b oracle fuel k val = 0 := by
  unfold scalarDrainAttempts
  cases horc : oracle 0 with
  | ok v => simp [startStep, horc]
  | error e =>
    cases e with
    | templateRes nn tt => rw [horc] at h; simp [startsLazy] at h
    | invalidPlaceholder => simp [startStep, horc]

lemma docDrainAttempts_le (b : Bool) (fuel : Nat)
    (xs : List (StrKind × String × (Nat → Except InterpErr String))) :
    docDrainAttempts b fuel xs ≤ 5 * unresolvedCount xs := by
  induction xs with
  | nil => simp [docDrainAttempts, unresolvedCount]
  | cons x xs ih =>
    unfold docDrainAttempts unresolvedCount at ih ⊢
    rw [List.map_cons, List.sum_cons, List.countP_cons]
    by_cases hl : startsLazy (x.2.2 0) = true
    · have h1 := scalarDrainAttempts_le b x.2.2 fuel x.1 x.2.1
      simp only [hl, if_true]
      omega
    · rw [scalarDrainAttempts_notLazy b x.2.2 fuel x.1 x.2.1 (by simpa using hl)]
      simp only [hl, if_false]
      omega

/-! ## The claims -/

/-- Claim C1 counterexample: a child loader created by subLoader from a
root whose defaults bind X to env (the inherited snapshot lands in the
child overrides) resolves X to env even though the root document
variables, harvested after the child was created, bind X to doc — the
claimed precedence of the root-chain document variables over the
inherited defaults fails on this input. -/
theorem claim_C1_counterexample :
    dget (getContext (subLoader (withVariables [("X", "env")]) none none)
        (some [("X", "doc")]) none) "X" = some "env"
    ∧ dget (getContext (subLoader (withVariables [("X", "env")]) none none)
        (some [("X", "doc")]) none) "X" ≠ some "doc" :=
  ⟨by decide, by decide⟩

/-- Claim C1 (amended): every name lookup performed during an
interpolation attempt follows the strict precedence chain that
getContext actually implements: call-site override, then the loader
constructor overrides (for a child loader the inherited snapshot of the
parent context, including inherited defaults), then the root document
variables current at the lookup, then the locally accumulated document
variables, then the loader defaults.  In particular the later-harvested
root document variables lose to the inherited snapshot, and a name
bound both in a loader docVars field and in the root variables would
resolve to the root binding (a child loader also never populates its
own docVars: subLoader always creates it empty). -/
theorem claim_C1 (L : Loader) (rootVars ov : Option Dict) (k : String) :
    dget (getContext L rootVars ov) k = resolveSpec L rootVars ov k :=
  getContext_spec L rootVars ov k

/-- Claim C2 counterexample: a scalar template referencing a name never
defined makes six failed interpolation attempts counted from the first
attempt at construction before strict mode raises — a sixth failed
attempt does occur, and the count is not five. -/
theorem claim_C2_counterexample :
    (lifecycle true (fun _ => interpolate (withVariables []) none none "$missing") 7
      StrKind.str "$missing").2 = 6
    ∧ (lifecycle true (fun _ => interpolate (withVariables []) none none "$missing") 7
      StrKind.str "$missing").2 ≠ 5 :=
  ⟨by decide, by decide⟩

/-- Claim C2 (amended): for every str scalar template referencing a
name never defined in any scope visible to its loader on any attempt,
the retry mechanism performs exactly 6 failed interpolation attempts
counted from the first attempt at construction — the construction
attempt plus the 5 drain-loop retries — before it raises in strict mode
or freezes in lenient mode, and no 7th failed attempt occurs; for a
unicode scalar template, exactly 1 failed attempt is performed and the
loader then crashes with TypeError while allocating the LazyUnicode
container, under either policy. -/
theorem claim_C2 (b : Bool) (oracle : Nat → Except InterpErr String)
    (hor : ∀ i, ∃ nm tp, oracle i = Except.error (InterpErr.templateRes nm tp))
    (fuel : Nat) (hf : 6 ≤ fuel) (val : String) :
    (lifecycle b oracle fuel StrKind.str val).2 = 6
    ∧ lifecycle b oracle fuel StrKind.unicode val = (Outcome.raised PyErr.typeError, 1) := by
  constructor
  · rw [lifecycle_exhaust b oracle hor fuel hf val]
  · exact lifecycle_unicode b oracle hor fuel val

/-- Claim C2 witness at a concrete constantly failing oracle. -/
theorem claim_C2_witness :
    (lifecycle false (fun _ => Except.error (InterpErr.templateRes "u" "$u")) 9
      StrKind.str "$u").2 = 6
    ∧ lifecycle false (fun _ => Except.error (InterpErr.templateRes "u" "$u")) 9
      StrKind.unicode "$u" = (Outcome.raised PyErr.typeError, 1) :=
  claim_C2 false (fun _ => Except.error (InterpErr.templateRes "u" "$u"))
    (fun _ => ⟨"u", "$u", rfl⟩) 9 (by omega) "$u"

/-- Claim C3 counterexample: a unicode template with a never-defined
placeholder does not freeze to the literal template under the lenient
policy (nor raise the exhaustion error): the loader crashes with
TypeError after the single construction-time attempt, because
LazyUnicode.__new__ calls str.__new__ on a class that is not a str
subtype. -/
theorem claim_C3_counterexample :
    lifecycle false (fun _ => interpolate (withVariables []) none none "$nope é") 7
      StrKind.unicode "$nope é" = (Outcome.raised PyErr.typeError, 1) := by decide

/-- Claim C3 (amended): a template whose placeholder name is never
defined in any visible scope fails deterministically: for a str
template the outcome is policy-dependent — the strict policy raises the
resolution-exhausted OnlTemplateError to the caller, the lenient policy
leaves the scalar frozen with exactly the literal unexpanded template
string as its value — while for a unicode template both policies crash
with TypeError at the LazyUnicode allocation after the first failed
attempt. -/
theorem claim_C3 (oracle : Nat → Except InterpErr String)
    (hor : ∀ i, ∃ nm tp, oracle i = Except.error (InterpErr.templateRes nm tp))
    (fuel : Nat) (hf : 6 ≤ fuel) (val : String) :
    lifecycle true oracle fuel StrKind.str val = (Outcome.raised PyErr.onlTemplateError, 6)
    ∧ lifecycle false oracle fuel StrKind.str val
      = (Outcome.finished ⟨val, StrKind.str,
          some ⟨StrKind.str, sentinel StrKind.str, some val⟩, 0⟩, 6)
    ∧ lifecycle true oracle fuel StrKind.unicode val = (Outcome.raised PyErr.typeError, 1)
    ∧ lifecycle false oracle fuel StrKind.unicode val
      = (Outcome.raised PyErr.typeError, 1) := by
  refine ⟨?_, ?_, ?_, ?_⟩
  · rw [lifecycle_exhaust true oracle hor fuel hf val]; simp
  · rw [lifecycle_exhaust false oracle hor fuel hf val]; simp
  · exact lifecycle_unicode true oracle hor fuel val
  · exact lifecycle_unicode false oracle hor fuel val

/-- Claim C3 witness at the real interpolate with an empty scope. -/
theorem claim_C3_witness :
    lifecycle true (fun _ => interpolate (withVariables []) none none "$nope") 8
      StrKind.str "$nope" = (Outcome.raised PyErr.onlTemplateError, 6)
    ∧ lifecycle false (fun _ => interpolate (withVariables []) none none "$nope") 8
      StrKind.str "$nope"
      = (Outcome.finished ⟨"$nope", StrKind.str,
          some ⟨StrKind.str, sentinel StrKind.str, some "$nope"⟩, 0⟩, 6)
    ∧ lifecycle true (fun _ => interpolate (withVariables []) none none "$nope") 8
      StrKind.unicode "$nope" = (Outcome.raised PyErr.typeError, 1)
    ∧ lifecycle false (fun _ => interpolate (withVariables []) none none "$nope") 8
      StrKind.unicode "$nope" = (Outcome.raised PyErr.typeError, 1) :=
  claim_C3 (fun _ => interpolate (withVariables []) none none "$nope")
    (fun _ => ⟨"nope", "$nope",
      by show interpolate (withVariables []) none none "$nope"
          = Except.error (InterpErr.templateRes "nope" "$nope"); decide⟩)
    8 (by omega) "$nope"

/-- Claim C4 counterexample: on the template consisting of a bare
dollar sign, interpolation neither returns a substituted string nor
raises the OnlTemplateError carrying a placeholder name — it raises the
uncaught invalid-placeholder ValueError, a third outcome the claim
excludes. -/
theorem claim_C4_counterexample :
    interpolate (withVariables []) none none "$"
      = Except.error InterpErr.invalidPlaceholder := by decide

/-- Claim C4 (amended): for every string template and scope, a single
interpolation call either returns the template with every placeholder
substituted (possible exactly when every scanned placeholder is bound
and no dollar use is malformed), or raises OnlTemplateError identifying
the first unresolved placeholder name and the template, or — when every
placeholder before the first malformed dollar use is bound — raises the
distinct invalid-placeholder ValueError; a partially substituted string
is never returned. -/
theorem claim_C4 (L : Loader) (rootVars ov : Option Dict) (tpl : String) :
    match (scanTemplate tpl).1.find?
        (fun m => (dget (getContext L rootVars ov) m).isNone) with
    | some n => interpolate L rootVars ov tpl = Except.error (InterpErr.templateRes n tpl)
    | none =>
      if (scanTemplate tpl).2
      then interpolate L rootVars ov tpl = Except.error InterpErr.invalidPlaceholder
      else ∃ out, interpolate L rootVars ov tpl = Except.ok out := by
  obtain ⟨h1, h2⟩ := subAux_scanTpl (getContext L rootVars ov) tpl.data.length tpl.data
  unfold scanTemplate
  cases hf : (scanTpl tpl.data.length tpl.data).1.find?
      (fun m => (dget (getContext L rootVars ov) m).isNone) with
  | some n =>
    show interpolate L rootVars ov tpl = Except.error (InterpErr.templateRes n tpl)
    unfold interpolate substitute
    rw [h1 n hf]
    rfl
  | none =>
    obtain ⟨hbad, hok⟩ := h2 hf
    cases hB : (scanTpl tpl.data.length tpl.data).2 with
    | true =>
      show interpolate L rootVars ov tpl = Except.error InterpErr.invalidPlaceholder
      unfold interpolate substitute
      rw [hbad hB]
      rfl
    | false =>
      show ∃ out, interpolate L rootVars ov tpl = Except.ok out
      obtain ⟨out, ho⟩ := hok hB
      refine ⟨String.mk out, ?_⟩
      unfold interpolate substitute
      rw [ho]
      rfl

/-- Claim C5: for every document with N initially unresolvable scalars,
the deferred-resolution drain terminates (for any oracle, once the fuel
exceeds the remaining budget the per-scalar drain never runs out) and
performs at most 5 × N interpolation attempts across all passes. -/
theorem claim_C5 (b : Bool) (fuel : Nat)
    (xs : List (StrKind × String × (Nat → Except InterpErr String))) :
    docDrainAttempts b fuel xs ≤ 5 * unresolvedCount xs
    ∧ (∀ (oracle : Nat → Except InterpErr String) (i count : Nat) (t : LazyTemplate),
        t.tries.toNat < fuel → (drainFrom b oracle fuel i t count).1 ≠ Outcome.fuelOut) :=
  ⟨docDrainAttempts_le b fuel xs,
   fun oracle i count t ht => drain_no_fuelOut b oracle fuel i t count ht⟩

/-- Claim C5 witness: a two-scalar document, one never resolving and
one resolving at construction, under a concrete fuel. -/
theorem claim_C5_witness :
    docDrainAttempts true 7
      [(StrKind.str, "$a", fun _ => Except.error (InterpErr.templateRes "a" "$a")),
       (StrKind.str, "ok", fun _ => Except.ok "ok")]
      ≤ 5 * unresolvedCount
      [(StrKind.str, "$a", fun _ => Except.error (InterpErr.templateRes "a" "$a")),
       (StrKind.str, "ok", fun _ => Except.ok "ok")]
    ∧ (drainFrom true (fun _ => Except.error (InterpErr.templateRes "a" "$a")) 7 1
        ⟨"$a", StrKind.str, some mkLazyStr, 5⟩ 0).1 ≠ Outcome.fuelOut :=
  ⟨(claim_C5 true 7
      [(StrKind.str, "$a", fun _ => Except.error (InterpErr.templateRes "a" "$a")),
       (StrKind.str, "ok", fun _ => Except.ok "ok")]).1,
   (claim_C5 true 7
      [(StrKind.str, "$a", fun _ => Except.error (InterpErr.templateRes "a" "$a")),
       (StrKind.str, "ok", fun _ => Except.ok "ok")]).2
     (fun _ => Except.error (InterpErr.templateRes "a" "$a")) 1 0
     ⟨"$a", StrKind.str, some mkLazyStr, 5⟩ (by decide)⟩

/-- Claim C6: once the resolved value of a lazy scalar has been
assigned it is never overwritten — with budget left a defer execution
on an already substituted container raises NotImplementedError instead
of rebinding, and a re-enqueue never changes the container — and
reading the scalar value before resolution raises ValueError rather
than returning a default. -/
theorem claim_C6 :
    (∀ (b : Bool) (a : Except InterpErr String) (t : LazyTemplate) (d : LazyStr)
        (w : String), t.data = some d → d.data = some w → 0 < t.tries →
        deferStep b a t = (DeferStep.raise PyErr.notImplementedError, 0))
    ∧ (∀ (b : Bool) (a : Except InterpErr String) (t t2 : LazyTemplate) (cnt : Nat),
        deferStep b a t = (DeferStep.requeue t2, cnt) → t2.data = t.data)
    ∧ (∀ (l : LazyStr), l.data = none → lazyStr l = Except.error PyErr.valueError) := by
  refine ⟨?_, ?_, ?_⟩
  · intro b a t d w hd hw ht
    unfold deferStep
    rw [if_neg (by omega), if_pos (by simp [hd, hw])]
  · intro b a t t2 cnt h
    exact (deferStep_requeue_inv h).2.2.1
  · intro l hl
    unfold lazyStr
    rw [hl]

/-- Claim C6 witness at a concrete already-substituted container and a
concrete unresolved lazy string. -/
theorem claim_C6_witness :
    deferStep true (Except.ok "v")
      ⟨"$x", StrKind.str, some ⟨StrKind.str, sentinel StrKind.str, some "done"⟩, 3⟩
      = (DeferStep.raise PyErr.notImplementedError, 0)
    ∧ lazyStr mkLazyStr = Except.error PyErr.valueError :=
  ⟨claim_C6.1 true (Except.ok "v")
      ⟨"$x", StrKind.str, some ⟨StrKind.str, sentinel StrKind.str, some "done"⟩, 3⟩
      ⟨StrKind.str, sentinel StrKind.str, some "done"⟩ "done" rfl rfl (by decide),
   claim_C6.2.2 mkLazyStr rfl⟩

/-- Claim C7: for every include directive carrying an inline key=value
override and every plain named template of that key inside the included
document, the resolved value equals the parent-supplied override, even
when the included document itself defines a binding for the key in its
own variables (modelled by forcing any docVars onto the child loader —
the code itself never populates them — the constructor overrides still
win by update order). -/
theorem claim_C7 (L : Loader) (rvInc rvNow : Option Dict) (inlineOv : Dict)
    (dv : Option Dict) (k v : String) (hk : validId k = true)
    (hv : dget inlineOv k = some v) :
    interpolate { subLoader L rvInc (some inlineOv) with docVars := dv } rvNow none
      ("$" ++ k) = Except.ok v := by
  have hparent : dget (getContext L rvInc (some inlineOv)) k = some v := by
    rw [getContext_spec]
    unfold resolveSpec
    simp [olookup, hv]
  have hctx : dget (getContext { subLoader L rvInc (some inlineOv) with docVars := dv }
      rvNow none) k = some v := by
    rw [getContext_spec]
    unfold resolveSpec
    simp [olookup, subLoader, hparent]
  unfold interpolate
  rw [substitute_name _ k v hk hctx]

/-- Claim C7 witness: the included document binds key in its own
variables and the root binds it too, yet the inline override wins. -/
theorem claim_C7_witness :
    interpolate { subLoader (withVariables [("key", "outer")]) none (some [("key", "value")])
        with docVars := some [("key", "inner")] } (some [("key", "rootv")]) none
      ("$" ++ "key") = Except.ok "value" :=
  claim_C7 (withVariables [("key", "outer")]) none (some [("key", "rootv")])
    [("key", "value")] (some [("key", "inner")]) "key" "value" (by decide) (by decide)

/-- Claim C8: when the string argument of a script or include directive
cannot be fully interpolated on its first attempt, the operation fails
immediately and the dropped start generator means no deferred retry is
ever enqueued.  For a str argument, getString returns the unresolved
lazy sentinel (the basestring guard never fires) and the script path
then raises ValueError while formatting the command — before any
execution and independent of exit status and parse outcome, leaving no
temporary file — while the include path raises OnlYamlError parsing
the sentinel words.  For a unicode argument, getString itself raises
the TypeError from the LazyUnicode allocation, which likewise aborts
the directive before anything runs.  Neither directive ever proceeds
with an unexpanded argument. -/
theorem claim_C8 (nm tp val : String) (status : Int) (parseOk : Bool) :
    getString (Except.error (InterpErr.templateRes nm tp)) StrKind.str val
      = Except.ok (GotString.lazy mkLazyStr)
    ∧ scriptFromYaml (getString (Except.error (InterpErr.templateRes nm tp)) StrKind.str val)
        status parseOk = (Except.error PyErr.valueError, false)
    ∧ includeScalarParse (GotString.lazy mkLazyStr) = Except.error PyErr.onlYamlError
    ∧ getString (Except.error (InterpErr.templateRes nm tp)) StrKind.unicode val
      = Except.error PyErr.typeError
    ∧ scriptFromYaml (getString (Except.error (InterpErr.templateRes nm tp))
        StrKind.unicode val) status parseOk = (Except.error PyErr.typeError, false) := by
  have hg : getString (Except.error (InterpErr.templateRes nm tp)) StrKind.str val
      = Except.ok (GotString.lazy mkLazyStr) := by
    simp [getString, startStep, mkLazy]
  have hgu : getString (Except.error (InterpErr.templateRes nm tp)) StrKind.unicode val
      = Except.error PyErr.typeError := by
    simp [getString, startStep, mkLazy]
  refine ⟨hg, ?_, by decide, hgu, ?_⟩
  · rw [hg]
    simp [scriptFromYaml, strOf, lazyStr, mkLazyStr]
  · rw [hgu]
    simp [scriptFromYaml]

/-- Claim C9 counterexample: a script command exiting with status 1
raises OnlYamlError but leaves the temporary output file recreated by
the shell redirection behind — cleanup is not unconditional on this
exit path. -/
theorem claim_C9_counterexample :
    scriptFromYaml (Except.ok (GotString.resolved "false")) 1 true
      = (Except.error PyErr.onlYamlError, true) := by decide

/-- Claim C9 (amended): for every script directive whose argument
resolved, a non-zero exit status raises the script-execution
OnlYamlError but leaves the redirected temporary output file behind
(the raise happens before the cleanup scope); after a zero exit the
temporary file is always deleted, whether parsing the output succeeds
or fails. -/
theorem claim_C9 (cmd : String) (status : Int) (parseOk : Bool) :
    (status ≠ 0 → scriptFromYaml (Except.ok (GotString.resolved cmd)) status parseOk
      = (Except.error PyErr.onlYamlError, true))
    ∧ (status = 0 → (scriptFromYaml (Except.ok (GotString.resolved cmd)) status parseOk).2
      = false) := by
  constructor
  · intro h
    simp [scriptFromYaml, strOf, h]
  · intro h
    subst h
    cases parseOk <;> simp [scriptFromYaml, strOf]

/-- Claim C9 witness at concrete exit statuses. -/
theorem claim_C9_witness :
    scriptFromYaml (Except.ok (GotString.resolved "echo hi")) 2 true
      = (Except.error PyErr.onlYamlError, true)
    ∧ (scriptFromYaml (Except.ok (GotString.resolved "echo hi")) 0 false).2 = false :=
  ⟨(claim_C9 "echo hi" 2 true).1 (by decide), (claim_C9 "echo hi" 0 false).2 rfl⟩

/-- Claim C10: every lazy scalar constructed in the unresolved state is
itself a string value whose raw content equals the fixed sentinel text
"THIS STRING INTENTIONALLY LEFT BLANK" — the only lazy class that can
ever be constructed is LazyString, since the construction path for a
unicode template raises TypeError inside LazyUnicode.__new__ instead of
yielding a lazy scalar.  Only an explicit value read raises the
not-initialized ValueError, while other string operations (equality and
splitting shown here, and the basestring test that getString relies on)
silently observe the raw sentinel text instead of failing. -/
theorem claim_C10 (nm tp val : String) :
    mkLazyStr.raw = "THIS STRING INTENTIONALLY LEFT BLANK"
    ∧ mkLazyStr.data = none
    ∧ lazyStr mkLazyStr = Except.error PyErr.valueError
    ∧ (mkLazyStr.raw == "THIS STRING INTENTIONALLY LEFT BLANK") = true
    ∧ startStep (Except.error (InterpErr.templateRes nm tp))
        { val := val, kind := StrKind.str }
      = StartStep.yieldLazy mkLazyStr ⟨val, StrKind.str, some mkLazyStr, 5⟩
    ∧ startStep (Except.error (InterpErr.templateRes nm tp))
        { val := val, kind := StrKind.unicode }
      = StartStep.raise PyErr.typeError
    ∧ splitWS mkLazyStr.raw = ["THIS", "STRING", "INTENTIONALLY", "LEFT", "BLANK"] := by
  exact ⟨rfl, rfl, rfl, by decide, by simp [startStep, mkLazy],
    by simp [startStep, mkLazy], by decide⟩

end OnlYaml
